import Mathlib

/-!
The Kafka demo producer, `_examples/bulk/kafka/producer/producer.go`.

A shallow embedding of package `producer`: the tables `sides`, `symbols`,
`accounts`, the `Producer` struct and its methods `Run`, `CreateTopic` and
`Report`.

Everything the Go code obtains from outside the package is an explicit
argument:

* `rand.Intn`, `(*kafka.Writer).WriteMessages` and `(*kafka.Writer).Stats` are
  answer streams indexed by the number of earlier calls (`Env`);
* `net.Dial` and `(*kafka.Conn).CreateTopics` are functions of their arguments
  (`AdminEnv`);
* `time.Now()` is an instant in nanoseconds handed to the method.

`Run` is an infinite `for { select { ... } }` loop; it is embedded as a step
function over the events the goroutine can meet while blocked in the `select`.
-/

namespace KafkaProducer

/-! ## Data model -/

/-- A Go `error` value; the `nil` error is `none : Option Error`. -/
abbrev Error := String

/-- The part of `kafka.Message` the producer fills in: `Value`. -/
structure Message where
  Value : String
  deriving DecidableEq, Repr

/-- The fields of `kafka.WriterStats` read by `Report` (all `int64`). -/
structure WriterStats where
  Messages : Int
  Errors : Int
  Bytes : Int
  deriving DecidableEq, Repr

/-- A `*kafka.Writer` as the producer sees it: the `WriterConfig` it was made
from, whether `Close` was called on it, and how many times `Stats` was called
on it. -/
structure Writer where
  Brokers : List String
  Topic : String
  closed : Bool
  statsCalls : Nat
  deriving DecidableEq, Repr

/-- The Go struct `Producer`. `writer` is a pointer: `none` is `nil`.
`startTime` is an instant in nanoseconds. -/
structure Producer where
  BrokerURL : String
  TopicName : String
  TopicParts : Int
  MessageRate : Int
  writer : Option Writer
  startTime : Int
  totalMessages : Int
  totalErrors : Int
  totalBytes : Int
  deriving DecidableEq, Repr

/-- Package variable `sides`. -/
def sides : List String := ["BUY", "SELL"]

/-- Package variable `symbols`. -/
def symbols : List String := ["ZBZX", "ZJZZT", "ZTEST", "ZVV", "ZVZZT", "ZWZZT", "ZXZZT"]

/-- Package variable `accounts`. -/
def accounts : List String := ["ABC123", "LMN456", "XYZ789"]

/-! ## The outside world of `Run` and `Report` -/

/-- Answers of the collaborators of `Run` and `Report`.
`Intn k n` is what the `k`-th call of `rand.Intn` returns when its argument is
`n`; `WriteMessages k` is the error returned by the `k`-th call of
`p.writer.WriteMessages` (`none` is `nil`); `Stats k` is what the `k`-th call of
`p.writer.Stats()` returns; `ftoaFinite a b` is the text
`humanize.FtoaWithDigits` produces for the finite quotient `a / b`. All counts
start at 0. -/
structure Env where
  Intn : Nat → Int → Int
  WriteMessages : Nat → Option Error
  Stats : Nat → WriterStats
  ftoaFinite : Int → Int → String

/-- Every `rand.Intn(n)` with `n > 0` returns a value in `[0, n)`. -/
def Env.InRange (env : Env) : Prop :=
  ∀ (k : Nat) (n : Int), 0 < n → 0 ≤ env.Intn k n ∧ env.Intn k n < n

/-- The call `rand.Intn(n)`, the `k`-th of the run; Go panics when `n <= 0`
(`none`). -/
def randIntn (env : Env) (k : Nat) (n : Int) : Option Int :=
  if n ≤ 0 then none else some (env.Intn k n)

/-- Slice indexing `tbl[i]`; Go panics when `i` is out of range (`none`). -/
def index (tbl : List String) (i : Int) : Option String :=
  if 0 ≤ i ∧ i < tbl.length then tbl.get? i.toNat else none

/-! ## `fmt.Fprintf` for the verbs the producer uses -/

/-- An operand of `Fprintf`: a `string` or an `int`. -/
inductive Arg where
  | str (s : String)
  | int (i : Int)
  deriving DecidableEq, Repr

/-- The verb `%d` on an `int`: decimal digits, `-` in front of a negative. -/
def fmtD (i : Int) : List Char :=
  if i < 0 then '-' :: Nat.toDigits 10 i.natAbs else Nat.toDigits 10 i.natAbs

/-- The text written by `fmt.Fprintf(&buf, format, args...)`, for formats whose
verbs are `%s` on a string operand and `%d` on an int operand, with as many
operands as verbs. Any other use (whose Go output is a `%!verb(...)` marker) is
`none`. -/
def Fprintf : List Char → List Arg → Option (List Char)
  | [], [] => some []
  | [], _ :: _ => none
  | c :: rest, args =>
    if c = '%' then
      match rest, args with
      | v :: rest', Arg.str s :: args' =>
        if v = 's' then (Fprintf rest' args').map (fun out => s.toList ++ out) else none
      | v :: rest', Arg.int i :: args' =>
        if v = 'd' then (Fprintf rest' args').map (fun out => fmtD i ++ out) else none
      | _, _ => none
    else (Fprintf rest args).map (fun out => c :: out)

/-- The format string of the record, a raw string literal in `Run`. -/
def recordFormat : String :=
  "\x7b\"symbol\":\"%s\", \"price\":%d, \"side\":\"%s\", \"quantity\":%d, \"account\":\"%s\"\x7d"

/-- One iteration of the inner loop of `Run` up to the `append`: five calls of
`rand.Intn`, numbered `k .. k+4` in Go's left-to-right evaluation order of the
operands, three table lookups, and the `Fprintf` into a fresh buffer. The result
is `kafka.Message{Value: buf.Bytes()}`; `none` is a panic. -/
def synthRecord (env : Env) (k : Nat) : Option Message := do
  let i1 ← randIntn env k symbols.length
  let symbol ← index symbols i1
  let r2 ← randIntn env (k + 1) 1000
  let price := r2 + 5
  let i3 ← randIntn env (k + 2) sides.length
  let side ← index sides i3
  let r4 ← randIntn env (k + 3) 5000
  let quantity := r4 + 1
  let i5 ← randIntn env (k + 4) accounts.length
  let account ← index accounts i5
  let buf ← Fprintf recordFormat.toList
    [Arg.str symbol, Arg.int price, Arg.str side, Arg.int quantity, Arg.str account]
  pure { Value := String.mk buf }

/-! ## `Run` -/

/-- What can wake the goroutine of `Run`, or be signalled to it, while it is
blocked in the `select`: the ticker's channel delivers a tick, or the context
passed to `Run` is cancelled (its `Done()` channel is closed). -/
inductive Event where
  | tick
  | cancel
  deriving DecidableEq, Repr

/-- Where a call of `Run` stands: still in the loop, returned with an error
value (`returned none` is `return nil`), or stopped by a runtime panic. -/
inductive Status where
  | running
  | returned (err : Option Error)
  | panicked
  deriving DecidableEq, Repr

/-- The state of one call of `Run`: the receiver `p` (with `p.writer` and
`p.startTime` set), the local slice `messages`, and the ticker. The remaining
fields record the interaction with the outside: `randCalls` counts the calls of
`rand.Intn`, `writes` lists the batches handed to `WriteMessages`, oldest first,
`ctxDone` says whether the context is cancelled. -/
structure RunState where
  p : Producer
  messages : List Message
  randCalls : Nat
  writes : List (List Message)
  ctxDone : Bool
  tickerStopped : Bool
  status : Status
  deriving DecidableEq, Repr

/-- The inner loop `for i := 1; i <= p.MessageRate; i++ { ... }` entered with
counter `i`: every iteration synthesizes one record and appends it to
`messages`. The result is the slice and the number of `rand.Intn` calls made so
far; `none` is a panic. The counter is an unbounded integer: it runs from 1 to
`MessageRate + 1`, which an `int` holds for every rate a batch can be built
for. -/
def synthLoop (env : Env) (rate : Int) (i : Int) (k : Nat) (messages : List Message) :
    Option (List Message × Nat) :=
  if i ≤ rate then
    match synthRecord env k with
    | none => none
    | some m => synthLoop env rate (i + 1) (k + 5) (messages ++ [m])
  else some (messages, k)
termination_by (rate + 1 - i).toNat
decreasing_by omega

/-- `kafka.NewWriter(kafka.WriterConfig{Brokers: []string{p.BrokerURL}, Topic: p.TopicName})`. -/
def NewWriter (brokers : List String) (topic : String) : Writer :=
  { Brokers := brokers, Topic := topic, closed := false, statsCalls := 0 }

/-- The statements of `Run` before the loop (lines 45-53): `messages` is nil,
`p.startTime = time.Now()`, `p.writer = kafka.NewWriter(...)`, and a ticker is
started. -/
def Run_init (now : Int) (p : Producer) : RunState :=
  { p := { p with startTime := now, writer := some (NewWriter [p.BrokerURL] p.TopicName) }
    messages := []
    randCalls := 0
    writes := []
    ctxDone := false
    tickerStopped := false
    status := Status.running }

/-- The body of `case <-ticker.C:` (lines 58-74): the inner loop, then one call
of `p.writer.WriteMessages(ctx, messages...)`; on an error `messages` is
truncated and the error returned, otherwise `messages` is truncated and the
loop goes on. -/
def onTick (env : Env) (s : RunState) : RunState :=
  match synthLoop env s.p.MessageRate 1 s.randCalls s.messages with
  | none => { s with status := Status.panicked }
  | some (messages, k) =>
    match env.WriteMessages s.writes.length with
    | some err =>
      { s with messages := [], randCalls := k, writes := s.writes ++ [messages],
               status := Status.returned (some err) }
    | none =>
      { s with messages := [], randCalls := k, writes := s.writes ++ [messages] }

/-- One step of the loop `for { select { case <-ticker.C: ... } }` (lines
55-76). The `select` has the single case `<-ticker.C`: a cancellation of the
context changes the context and nothing in the goroutine, which stays blocked
on the ticker. A call that has returned or panicked takes no more steps. -/
def step (env : Env) (s : RunState) (e : Event) : RunState :=
  match s.status with
  | Status.running =>
    match e with
    | Event.tick => onTick env s
    | Event.cancel => { s with ctxDone := true }
  | _ => s

/-- The statements written after the loop (lines 78-81): `p.writer.Close()`,
`ticker.Stop()`, `return nil`. The loop has no `break` and `step` never runs
them. -/
def Run_epilogue (s : RunState) : RunState :=
  { s with p := { s.p with writer := s.p.writer.map (fun w => { w with closed := true }) }
           tickerStopped := true
           status := Status.returned none }

/-- The call `p.Run(ctx)` entered at instant `now` and followed through the
events `evs`. -/
def Run (env : Env) (now : Int) (p : Producer) (evs : List Event) : RunState :=
  evs.foldl (step env) (Run_init now p)

/-- Number of ticks among the events. -/
def ticks (evs : List Event) : Nat := evs.count Event.tick

/-- Number of messages in the batches whose `WriteMessages` call returned nil,
for the batches `writes` handed to calls number `k`, `k+1`, ... -/
def delivered (env : Env) : Nat → List (List Message) → Nat
  | _, [] => 0
  | k, b :: bs => (if env.WriteMessages k = none then b.length else 0) + delivered env (k + 1) bs

/-! ## `CreateTopic` -/

/-- A `net.Conn` returned by `net.Dial`. -/
structure NetConn where
  id : Nat
  deriving DecidableEq, Repr

/-- A `*kafka.Conn` made by `kafka.NewConn(conn, topic, partition)`. -/
structure Conn where
  conn : NetConn
  topic : String
  partition : Int
  deriving DecidableEq, Repr

/-- The fields of `kafka.TopicConfig` set by `CreateTopic`. -/
structure TopicConfig where
  Topic : String
  NumPartitions : Int
  ReplicationFactor : Int
  deriving DecidableEq, Repr

/-- Answers of the collaborators of `CreateTopic`: `net.Dial(network, address)`
and `(*kafka.Conn).CreateTopics(topics...)`. -/
structure AdminEnv where
  Dial : String → String → Except Error NetConn
  CreateTopics : Conn → List TopicConfig → Option Error

/-- A call `CreateTopic` makes to the outside. -/
inductive AdminCall where
  | dial (network address : String)
  | createTopics (c : Conn) (topics : List TopicConfig)
  deriving DecidableEq, Repr

/-- `kafka.NewConn(conn, topic, partition)`. -/
def NewConn (conn : NetConn) (topic : String) (partition : Int) : Conn :=
  { conn := conn, topic := topic, partition := partition }

/-- The method `CreateTopic`: the calls made to the outside, in order, and the
returned error. The context argument is not used by the Go code. -/
def CreateTopic (env : AdminEnv) (p : Producer) : List AdminCall × Option Error :=
  match env.Dial "tcp" p.BrokerURL with
  | Except.error err => ([AdminCall.dial "tcp" p.BrokerURL], some err)
  | Except.ok conn =>
    let c := NewConn conn "" 0
    let topics : List TopicConfig :=
      [{ Topic := p.TopicName, NumPartitions := p.TopicParts, ReplicationFactor := 1 }]
    ([AdminCall.dial "tcp" p.BrokerURL, AdminCall.createTopics c topics], env.CreateTopics c topics)

/-- The create-topic requests among the calls. -/
def createRequests : List AdminCall → List (Conn × List TopicConfig)
  | [] => []
  | AdminCall.dial _ _ :: cs => createRequests cs
  | AdminCall.createTopics c topics :: cs => (c, topics) :: createRequests cs

/-! ## `Report` -/

/-- `time.Second` as a `Duration` (nanoseconds). -/
def Second : Int := 1000000000

/-- An `int64` result: the two's complement wrap of an exact integer. -/
def wrap64 (x : Int) : Int := (x + 2 ^ 63) % 2 ^ 64 - 2 ^ 63

/-- The exact integer lies in the `int64` range. -/
def fits64 (x : Int) : Prop := -(2 : Int) ^ 63 ≤ x ∧ x < 2 ^ 63

instance (x : Int) : Decidable (fits64 x) := by unfold fits64; infer_instance

/-- `time.Since(t)`, that is `time.Now().Sub(t)`: the difference in nanoseconds,
saturated at the ends of the `Duration` range. -/
def Since (now t : Int) : Int :=
  if now - t < -(2 : Int) ^ 63 then -(2 : Int) ^ 63
  else if now - t ≥ 2 ^ 63 then 2 ^ 63 - 1
  else now - t

/-- `d.Truncate(m)`: `d` rounded toward zero to a multiple of `m`, and `d`
itself when `m <= 0`. -/
def Truncate (d m : Int) : Int := if m ≤ 0 then d else d - d.tmod m

/-- The value of a `float64` division as far as `Report` needs it: a finite
quotient is kept as its two operands, a division by zero gives an infinity or
NaN. -/
inductive F64 where
  | finite (num den : Int)
  | posInf
  | negInf
  | nan
  deriving DecidableEq, Repr

/-- The division `float64(a) / x` for `x` the `float64` of the whole number
`secs`; a zero `x` is `+0`. -/
def fdiv (a secs : Int) : F64 :=
  if secs = 0 then
    if a > 0 then F64.posInf else if a < 0 then F64.negInf else F64.nan
  else F64.finite a secs

/-- `humanize.FtoaWithDigits(x, 0)`: `strconv.FormatFloat(x, 'f', 6, 64)` cut at
the decimal point. `FormatFloat` writes `+Inf`, `-Inf` and `NaN` for the
non-finite values, which have no decimal point and no trailing `0`. -/
def FtoaWithDigits (env : Env) : F64 → String
  | F64.finite a b => env.ftoaFinite a b
  | F64.posInf => "+Inf"
  | F64.negInf => "-Inf"
  | F64.nan => "NaN"

/-- The operands `Report` passes to `fmt.Printf` after the format and the
widths: the truncated duration, the rate text, and the three counters
(`bytes` after the conversion `uint64(p.totalBytes)`). -/
structure ReportLine where
  duration : Int
  rate : String
  sent : Int
  bytes : Int
  errors : Int
  deriving DecidableEq, Repr

/-- What a call of `Report` does: the receiver afterwards, the line printed
(`none` when nothing is printed), and the operands `(dividend, divisor)` of the
floating-point division it evaluated (`none` when it evaluated none). -/
structure ReportResult where
  p : Producer
  line : Option ReportLine
  division : Option (Int × Int)
  deriving DecidableEq, Repr

/-- The method `Report`, called at instant `now`. With a nil writer it returns
at once. Otherwise it calls `p.writer.Stats()` once, adds the three values to
the `int64` counters, and computes the rate: when `p.totalMessages > 0` it
divides by `duration.Truncate(time.Second).Seconds()`, which for a multiple of
a second is the whole number of seconds; otherwise the rate is `0/sec`. -/
def Report (env : Env) (now : Int) (p : Producer) : ReportResult :=
  match p.writer with
  | none => { p := p, line := none, division := none }
  | some w =>
    let duration := Since now p.startTime
    let stats := env.Stats w.statsCalls
    let p1 : Producer :=
      { p with writer := some { w with statsCalls := w.statsCalls + 1 }
               totalMessages := wrap64 (p.totalMessages + stats.Messages)
               totalErrors := wrap64 (p.totalErrors + stats.Errors)
               totalBytes := wrap64 (p.totalBytes + stats.Bytes) }
    let secs := (Truncate duration Second).tdiv Second
    let rate : String :=
      if p1.totalMessages > 0 then FtoaWithDigits env (fdiv p1.totalMessages secs) ++ "/sec"
      else "0/sec"
    { p := p1
      line := some { duration := Truncate duration Second, rate := rate, sent := p1.totalMessages,
                     bytes := p1.totalBytes % 2 ^ 64, errors := p1.totalErrors }
      division := if p1.totalMessages > 0 then some (p1.totalMessages, secs) else none }

/-! ## `Run` and `Report` on one producer -/

/-- What happens to a producer whose `Run` is under way: an event of the loop,
or a call of `Report` at some instant. -/
inductive Action where
  | event (e : Event)
  | report (now : Int)
  deriving DecidableEq, Repr

/-- One action on the state of the run; `Report` works on the receiver `p`. -/
def act (env : Env) (s : RunState) : Action → RunState
  | Action.event e => step env s e
  | Action.report now => { s with p := (Report env now s.p).p }

/-- The state after the actions `l`. -/
def acts (env : Env) (s : RunState) (l : List Action) : RunState :=
  l.foldl (act env) s

/-- The three additions of a call of `Report` on `p` stay in the `int64` range
(nothing is added when the writer is nil). -/
def ReportFits (env : Env) (p : Producer) : Prop :=
  match p.writer with
  | none => True
  | some w =>
    fits64 (p.totalMessages + (env.Stats w.statsCalls).Messages) ∧
    fits64 (p.totalErrors + (env.Stats w.statsCalls).Errors) ∧
    fits64 (p.totalBytes + (env.Stats w.statsCalls).Bytes)

instance (env : Env) (p : Producer) : Decidable (ReportFits env p) := by
  unfold ReportFits
  cases p.writer <;> infer_instance

/-- No addition made by the `Report` calls among the actions leaves the `int64`
range. -/
def NoOverflow (env : Env) : RunState → List Action → Prop
  | _, [] => True
  | s, Action.event e :: l => NoOverflow env (step env s e) l
  | s, Action.report now :: l =>
    ReportFits env s.p ∧ NoOverflow env (act env s (Action.report now)) l

/-! ## The record format in the words of the specification -/

/-- The flat object with keys `symbol, price, side, quantity, account`, the
price and the quantity in decimal. -/
def flatObject (S : String) (P : Nat) (D : String) (Q : Nat) (A : String) : String :=
  "\x7b\"symbol\":\"" ++ S ++ "\", \"price\":" ++ Nat.repr P ++ ", \"side\":\"" ++ D ++
    "\", \"quantity\":" ++ Nat.repr Q ++ ", \"account\":\"" ++ A ++ "\"\x7d"

/-- A record of the wire format: one of the 7 symbols, a price from 5 to 1004,
a side, a quantity from 1 to 5000, one of the 3 accounts. -/
def WellFormed (m : Message) : Prop :=
  ∃ S ∈ symbols, ∃ P : Nat, 5 ≤ P ∧ P ≤ 1004 ∧ ∃ D ∈ sides, ∃ Q : Nat, 1 ≤ Q ∧ Q ≤ 5000 ∧
    ∃ A ∈ accounts, m.Value = flatObject S P D Q A

/-! ## Concrete inputs -/

/-- A fresh producer as `main` would build it: two messages per second. -/
def demoProducer : Producer :=
  { BrokerURL := "localhost:9092", TopicName := "stocks", TopicParts := 4, MessageRate := 2,
    writer := none, startTime := 0, totalMessages := 0, totalErrors := 0, totalBytes := 0 }

/-- A world in which every publish succeeds, the `k`-th random draw below `n` is
`k mod n`, and every `Stats()` call reports 2 messages and 150 bytes. -/
def demoEnv : Env :=
  { Intn := fun k n => (k : Int) % n
    WriteMessages := fun _ => none
    Stats := fun _ => { Messages := 2, Errors := 0, Bytes := 150 }
    ftoaFinite := fun _ _ => "" }

/-- The world `demoEnv` except that the publish of tick `K` (counted from 1)
fails with `err`. -/
def failingEnv (K : Nat) (err : Error) : Env :=
  { demoEnv with WriteMessages := fun k => if k + 1 = K then some err else none }

/-- A producer in the first half second of a run with 5 messages counted. -/
def busyProducer : Producer :=
  { demoProducer with writer := some (NewWriter ["localhost:9092"] "stocks"),
                      totalMessages := 5 }

/-- The world `demoEnv` with a writer that has nothing new to report. -/
def quietEnv : Env :=
  { demoEnv with Stats := fun _ => { Messages := 0, Errors := 0, Bytes := 0 } }

/-- A broker address nobody listens on. -/
def unreachableAdmin : AdminEnv :=
  { Dial := fun _ _ => Except.error "dial tcp: connection refused"
    CreateTopics := fun _ _ => none }

/-- A broker that answers every create-topic request with `topic exists`. -/
def existingTopicAdmin : AdminEnv :=
  { Dial := fun _ _ => Except.ok { id := 7 }
    CreateTopics := fun _ _ => some "topic exists" }

/-! ## Record synthesis -/

theorem recordFormat_chars : recordFormat.toList =
    ['\x7b', '"', 's', 'y', 'm', 'b', 'o', 'l', '"', ':', '"', '%', 's', '"', ',', ' ',
     '"', 'p', 'r', 'i', 'c', 'e', '"', ':', '%', 'd', ',', ' ',
     '"', 's', 'i', 'd', 'e', '"', ':', '"', '%', 's', '"', ',', ' ',
     '"', 'q', 'u', 'a', 'n', 't', 'i', 't', 'y', '"', ':', '%', 'd', ',', ' ',
     '"', 'a', 'c', 'c', 'o', 'u', 'n', 't', '"', ':', '"', '%', 's', '"', '\x7d'] := by
  decide

theorem Fprintf_record (S D A : String) (P Q : Nat) :
    (Fprintf recordFormat.toList
        [Arg.str S, Arg.int P, Arg.str D, Arg.int Q, Arg.str A]).map String.mk
      = some (flatObject S P D Q A) := by
  rw [recordFormat_chars]
  have hP : ¬ ((P : Int) < 0) := by omega
  have hQ : ¬ ((Q : Int) < 0) := by omega
  simp only [Fprintf, fmtD, flatObject, hP, hQ]
  simp [String.ext_iff, String.data_append, Nat.repr, List.asString]

theorem index_some (tbl : List String) (i : Int) (h0 : 0 ≤ i) (h1 : i < tbl.length) :
    ∃ x ∈ tbl, index tbl i = some x := by
  have hlt : i.toNat < tbl.length := by omega
  refine ⟨tbl.get ⟨i.toNat, hlt⟩, List.get_mem _ _ _, ?_⟩
  simp [index, h0, h1, List.get?_eq_get hlt]

theorem synthRecord_wellFormed (env : Env) (hin : env.InRange) (k : Nat) :
    ∃ m, synthRecord env k = some m ∧ WellFormed m := by
  obtain ⟨a0, a1⟩ := hin k symbols.length (by decide)
  obtain ⟨b0, b1⟩ := hin (k + 1) 1000 (by decide)
  obtain ⟨c0, c1⟩ := hin (k + 2) sides.length (by decide)
  obtain ⟨d0, d1⟩ := hin (k + 3) 5000 (by decide)
  obtain ⟨e0, e1⟩ := hin (k + 4) accounts.length (by decide)
  obtain ⟨S, hS, hiS⟩ := index_some symbols _ a0 a1
  obtain ⟨D, hD, hiD⟩ := index_some sides _ c0 c1
  obtain ⟨A, hA, hiA⟩ := index_some accounts _ e0 e1
  obtain ⟨P, hP⟩ : ∃ P : Nat, env.Intn (k + 1) 1000 + 5 = (P : Int) :=
    ⟨(env.Intn (k + 1) 1000 + 5).toNat, by omega⟩
  obtain ⟨Q, hQ⟩ : ∃ Q : Nat, env.Intn (k + 3) 5000 + 1 = (Q : Int) :=
    ⟨(env.Intn (k + 3) 5000 + 1).toNat, by omega⟩
  obtain ⟨buf, hbuf, hmk⟩ := Option.map_eq_some'.mp (Fprintf_record S D A P Q)
  refine ⟨{ Value := flatObject S P D Q A }, ?_,
    S, hS, P, by omega, by omega, D, hD, Q, by omega, by omega, A, hA, rfl⟩
  have h1 : ¬ ((symbols.length : Int) ≤ 0) := by decide
  have h2 : ¬ ((sides.length : Int) ≤ 0) := by decide
  have h3 : ¬ ((accounts.length : Int) ≤ 0) := by decide
  simp only [synthRecord, randIntn, h1, h2, h3, if_false, show ¬ ((1000 : Int) ≤ 0) by decide,
    show ¬ ((5000 : Int) ≤ 0) by decide, Option.bind_eq_bind, Option.some_bind, hiS, hiD, hiA,
    hP, hQ, hbuf, hmk, Option.pure_def]

theorem synthLoop_spec (env : Env) (hin : env.InRange) (rate : Int) :
    ∀ (n : Nat) (i : Int) (k : Nat) (messages : List Message), rate + 1 - i = n →
      ∃ recs : List Message, recs.length = n ∧ (∀ m ∈ recs, WellFormed m) ∧
        synthLoop env rate i k messages = some (messages ++ recs, k + 5 * n) := by
  intro n
  induction n with
  | zero =>
    intro i k messages h
    refine ⟨[], rfl, by simp, ?_⟩
    rw [synthLoop]
    have : ¬ i ≤ rate := by omega
    simp [this]
  | succ n ih =>
    intro i k messages h
    obtain ⟨m, hm, hwf⟩ := synthRecord_wellFormed env hin k
    obtain ⟨recs, hlen, hall, hloop⟩ := ih (i + 1) (k + 5) (messages ++ [m]) (by omega)
    refine ⟨m :: recs, by simp [hlen], ?_, ?_⟩
    · intro x hx
      rcases List.mem_cons.mp hx with rfl | hx
      · exact hwf
      · exact hall x hx
    · rw [synthLoop]
      have : i ≤ rate := by omega
      simp only [this, if_true, hm, hloop]
      simp
      omega

theorem synthLoop_done (env : Env) (rate i : Int) (k : Nat) (messages : List Message)
    (h : rate < i) : synthLoop env rate i k messages = some (messages, k) := by
  rw [synthLoop]
  have : ¬ i ≤ rate := by omega
  simp [this]

/-! ## The loop of `Run`: frame and invariants -/

theorem ticks_nil : ticks [] = 0 := rfl

theorem ticks_cons_tick (evs : List Event) : ticks (Event.tick :: evs) = ticks evs + 1 := by
  simp [ticks]

theorem ticks_cons_cancel (evs : List Event) : ticks (Event.cancel :: evs) = ticks evs := by
  simp [ticks]

theorem onTick_p (env : Env) (s : RunState) : (onTick env s).p = s.p := by
  unfold onTick
  split
  · rfl
  · split <;> rfl

theorem onTick_tickerStopped (env : Env) (s : RunState) :
    (onTick env s).tickerStopped = s.tickerStopped := by
  unfold onTick
  split
  · rfl
  · split <;> rfl

theorem step_p (env : Env) (s : RunState) (e : Event) : (step env s e).p = s.p := by
  unfold step
  split
  · cases e
    · exact onTick_p env s
    · rfl
  · rfl

theorem step_tickerStopped (env : Env) (s : RunState) (e : Event) :
    (step env s e).tickerStopped = s.tickerStopped := by
  unfold step
  split
  · cases e
    · exact onTick_tickerStopped env s
    · rfl
  · rfl

theorem step_status_ne_nil (env : Env) (s : RunState) (e : Event)
    (h : s.status ≠ Status.returned none) : (step env s e).status ≠ Status.returned none := by
  unfold step onTick
  cases hs : s.status with
  | running =>
    cases e with
    | tick =>
      simp only
      split
      · simp
      · split <;> simp [hs]
    | cancel => simp [hs]
  | returned err => simpa [hs] using h
  | panicked => simp [hs]

theorem step_of_not_running (env : Env) (s : RunState) (e : Event)
    (h : s.status ≠ Status.running) : step env s e = s := by
  unfold step
  cases hs : s.status with
  | running => exact absurd hs h
  | returned err => rfl
  | panicked => rfl

theorem foldl_step_of_not_running (env : Env) (evs : List Event) (s : RunState)
    (h : s.status ≠ Status.running) : evs.foldl (step env) s = s := by
  induction evs with
  | nil => rfl
  | cons e evs ih => rw [List.foldl_cons, step_of_not_running env s e h, ih]

theorem foldl_step_p (env : Env) (evs : List Event) (s : RunState) :
    (evs.foldl (step env) s).p = s.p := by
  induction evs generalizing s with
  | nil => rfl
  | cons e evs ih => rw [List.foldl_cons, ih, step_p]

theorem foldl_step_tickerStopped (env : Env) (evs : List Event) (s : RunState) :
    (evs.foldl (step env) s).tickerStopped = s.tickerStopped := by
  induction evs generalizing s with
  | nil => rfl
  | cons e evs ih => rw [List.foldl_cons, ih, step_tickerStopped]

theorem foldl_step_status_ne_nil (env : Env) (evs : List Event) (s : RunState)
    (h : s.status ≠ Status.returned none) :
    (evs.foldl (step env) s).status ≠ Status.returned none := by
  induction evs generalizing s with
  | nil => exact h
  | cons e evs ih => rw [List.foldl_cons]; exact ih _ (step_status_ne_nil env s e h)

theorem Run_snoc (env : Env) (now : Int) (p : Producer) (evs : List Event) (e : Event) :
    Run env now p (evs ++ [e]) = step env (Run env now p evs) e := by
  simp [Run, List.foldl_append]

theorem Run_append (env : Env) (now : Int) (p : Producer) (pre post : List Event) :
    Run env now p (pre ++ post) = post.foldl (step env) (Run env now p pre) := by
  simp [Run, List.foldl_append]

/-- The tick body on a state whose slice is empty, when the random draws are in
range: the batch has `MessageRate` well-formed records (none when the rate is
negative) and exactly one write is logged. -/
theorem onTick_spec (env : Env) (hin : env.InRange) (s : RunState) (hm : s.messages = []) :
    ∃ (batch : List Message) (k : Nat), batch.length = s.p.MessageRate.toNat ∧
      (∀ m ∈ batch, WellFormed m) ∧
      onTick env s =
        match env.WriteMessages s.writes.length with
        | some err =>
          { s with messages := [], randCalls := k, writes := s.writes ++ [batch],
                   status := Status.returned (some err) }
        | none => { s with messages := [], randCalls := k, writes := s.writes ++ [batch] } := by
  by_cases hr : 0 ≤ s.p.MessageRate
  · obtain ⟨recs, hlen, hall, hloop⟩ :=
      synthLoop_spec env hin s.p.MessageRate s.p.MessageRate.toNat 1 s.randCalls []
        (by omega)
    refine ⟨recs, s.randCalls + 5 * s.p.MessageRate.toNat, hlen, hall, ?_⟩
    unfold onTick
    rw [hm, hloop]
    simp
  · refine ⟨[], s.randCalls, by simp; omega, by simp, ?_⟩
    unfold onTick
    rw [hm, synthLoop_done env _ _ _ _ (by omega)]

theorem delivered_append (env : Env) (bs : List (List Message)) (b : List Message) (k : Nat) :
    delivered env k (bs ++ [b]) =
      delivered env k bs + (if env.WriteMessages (k + bs.length) = none then b.length else 0) := by
  induction bs generalizing k with
  | nil => simp [delivered]
  | cons a bs ih =>
    show delivered env k (a :: (bs ++ [b])) = _
    rw [delivered, delivered, ih, List.length_cons]
    have : k + 1 + bs.length = k + (bs.length + 1) := by omega
    rw [this]
    omega

/-- The set of facts kept by every step when the random draws are in range. -/
theorem step_inv (env : Env) (hin : env.InRange) (rate : Nat) (s : RunState) (e : Event)
    (hrate : s.p.MessageRate.toNat = rate)
    (hm : s.messages = []) (hst : s.status ≠ Status.panicked)
    (hw : ∀ b ∈ s.writes, b.length = rate ∧ ∀ m ∈ b, WellFormed m) :
    (step env s e).messages = [] ∧ (step env s e).status ≠ Status.panicked ∧
      ∀ b ∈ (step env s e).writes, b.length = rate ∧ ∀ m ∈ b, WellFormed m := by
  cases hs : s.status with
  | running =>
    cases e with
    | cancel => simpa [step, hs] using ⟨hm, hw⟩
    | tick =>
      obtain ⟨batch, k, hlen, hall, heq⟩ := onTick_spec env hin s hm
      have hstep : step env s Event.tick = onTick env s := by simp [step, hs]
      rw [hstep, heq]
      have hw2 : ∀ b ∈ s.writes ++ [batch], b.length = rate ∧ ∀ m ∈ b, WellFormed m := by
        intro b hb
        rcases List.mem_append.mp hb with hb | hb
        · exact hw b hb
        · rw [List.mem_singleton.mp hb]; exact ⟨hlen.trans hrate, hall⟩
      cases env.WriteMessages s.writes.length with
      | none => exact ⟨rfl, by simpa using hst, hw2⟩
      | some err => exact ⟨rfl, by simp, hw2⟩
  | returned err =>
    rw [step_of_not_running env s e (by simp [hs])]
    exact ⟨hm, hst, hw⟩
  | panicked => exact absurd hs hst

theorem foldl_step_inv (env : Env) (hin : env.InRange) (rate : Nat) (evs : List Event) :
    ∀ s : RunState, s.p.MessageRate.toNat = rate → s.messages = [] →
      s.status ≠ Status.panicked →
      (∀ b ∈ s.writes, b.length = rate ∧ ∀ m ∈ b, WellFormed m) →
      (evs.foldl (step env) s).messages = [] ∧
      (evs.foldl (step env) s).status ≠ Status.panicked ∧
      ∀ b ∈ (evs.foldl (step env) s).writes, b.length = rate ∧ ∀ m ∈ b, WellFormed m := by
  induction evs with
  | nil => intro s _ hm hst hw; exact ⟨hm, hst, hw⟩
  | cons e evs ih =>
    intro s hrate hm hst hw
    obtain ⟨h1, h2, h3⟩ := step_inv env hin rate s e hrate hm hst hw
    rw [List.foldl_cons]
    exact ih _ (by rw [step_p]; exact hrate) h1 h2 h3

theorem Run_inv (env : Env) (hin : env.InRange) (now : Int) (p : Producer) (evs : List Event) :
    (Run env now p evs).messages = [] ∧ (Run env now p evs).status ≠ Status.panicked ∧
      ∀ b ∈ (Run env now p evs).writes,
        b.length = p.MessageRate.toNat ∧ ∀ m ∈ b, WellFormed m :=
  foldl_step_inv env hin _ evs (Run_init now p) rfl rfl (by simp [Run_init])
    (by simp [Run_init])

theorem Run_p (env : Env) (now : Int) (p : Producer) (evs : List Event) :
    (Run env now p evs).p = (Run_init now p).p :=
  foldl_step_p env evs _

/-- No run returns nil: the only `return` inside the loop returns the error of
a failed publish. -/
theorem Run_status_ne_nil (env : Env) (now : Int) (p : Producer) (evs : List Event) :
    (Run env now p evs).status ≠ Status.returned none :=
  foldl_step_status_ne_nil env evs _ (by simp [Run_init])

/-- No run closes its writer or stops its ticker, so no run is ever in a state
left by the statements after the loop. -/
theorem Run_ne_epilogue (env : Env) (now : Int) (p : Producer) (evs : List Event)
    (s : RunState) :
    (Run env now p evs).p.writer = some (NewWriter [p.BrokerURL] p.TopicName) ∧
      (Run env now p evs).tickerStopped = false ∧
      Run env now p evs ≠ Run_epilogue s := by
  refine ⟨by rw [Run_p]; rfl, foldl_step_tickerStopped env evs _, ?_⟩
  intro h
  have h1 := foldl_step_tickerStopped env evs (Run_init now p)
  have h2 : (Run env now p evs).tickerStopped = true := by rw [h]; rfl
  rw [show (evs.foldl (step env) (Run_init now p)) = Run env now p evs from rfl, h2] at h1
  simp [Run_init] at h1

/-- Ticks that all publish successfully: the run is still going, one write was
made per tick, and every batch was delivered. -/
theorem foldl_step_success (env : Env) (hin : env.InRange) (evs : List Event) :
    ∀ s : RunState, s.status = Status.running → s.messages = [] →
      (∀ k, s.writes.length ≤ k → k < s.writes.length + ticks evs →
        env.WriteMessages k = none) →
      (evs.foldl (step env) s).status = Status.running ∧
      (evs.foldl (step env) s).writes.length = s.writes.length + ticks evs ∧
      delivered env 0 (evs.foldl (step env) s).writes =
        delivered env 0 s.writes + ticks evs * s.p.MessageRate.toNat := by
  induction evs with
  | nil => intro s hs _ _; simp [hs, ticks_nil]
  | cons e evs ih =>
    intro s hs hm hok
    rw [List.foldl_cons]
    cases e with
    | cancel =>
      have hstep : step env s Event.cancel = { s with ctxDone := true } := by simp [step, hs]
      rw [ticks_cons_cancel] at hok ⊢
      rw [hstep]
      exact ih { s with ctxDone := true } hs hm hok
    | tick =>
      obtain ⟨batch, k, hlen, -, heq⟩ := onTick_spec env hin s hm
      have hstep : step env s Event.tick = onTick env s := by simp [step, hs]
      rw [ticks_cons_tick] at hok ⊢
      have hok0 : env.WriteMessages s.writes.length = none :=
        hok _ (le_refl _) (by omega)
      rw [hstep, heq, hok0]
      have hi := ih { s with messages := [], randCalls := k, writes := s.writes ++ [batch] }
        hs rfl (by
          intro j h1 h2
          simp only [List.length_append, List.length_singleton] at h1 h2
          exact hok j (by omega) (by omega))
      obtain ⟨h1, h2, h3⟩ := hi
      refine ⟨h1, ?_, ?_⟩
      · rw [h2]; simp only [List.length_append, List.length_singleton]; omega
      · rw [h3, delivered_append]
        simp only [Nat.zero_add, hok0, if_true, hlen, Nat.add_mul, Nat.one_mul]
        omega

theorem ticks_split (evs : List Event) :
    ∀ K : Nat, 1 ≤ K → K ≤ ticks evs →
      ∃ pre post, evs = pre ++ Event.tick :: post ∧ ticks pre = K - 1 := by
  induction evs with
  | nil => intro K h1 h2; rw [ticks_nil] at h2; omega
  | cons e evs ih =>
    intro K h1 h2
    cases e with
    | cancel =>
      rw [ticks_cons_cancel] at h2
      obtain ⟨pre, post, hev, hp⟩ := ih K h1 h2
      exact ⟨Event.cancel :: pre, post, by simp [hev], by rw [ticks_cons_cancel]; exact hp⟩
    | tick =>
      rw [ticks_cons_tick] at h2
      by_cases hK : K = 1
      · exact ⟨[], evs, rfl, by simp [ticks_nil, hK]⟩
      · obtain ⟨pre, post, hev, hp⟩ := ih (K - 1) (by omega) (by omega)
        refine ⟨Event.tick :: pre, post, by simp [hev], ?_⟩
        rw [ticks_cons_tick]
        omega

/-- The run whose first failing publish is the one of tick `K`. -/
theorem Run_failure (env : Env) (hin : env.InRange) (now : Int) (p : Producer)
    (evs : List Event) (K : Nat) (err : Error) (hK : 1 ≤ K)
    (hok : ∀ k, k < K - 1 → env.WriteMessages k = none)
    (hfail : env.WriteMessages (K - 1) = some err) (hev : K ≤ ticks evs) :
    (Run env now p evs).status = Status.returned (some err) ∧
      (Run env now p evs).writes.length = K ∧
      delivered env 0 (Run env now p evs).writes = (K - 1) * p.MessageRate.toNat := by
  obtain ⟨pre, post, hsplit, hpre⟩ := ticks_split evs K hK hev
  obtain ⟨hs, hlen, hdel⟩ := foldl_step_success env hin pre (Run_init now p) rfl rfl
    (by intro k _ h2; exact hok k (by simpa [Run_init, hpre] using h2))
  have hinv := Run_inv env hin now p pre
  obtain ⟨batch, k, hblen, -, heq⟩ := onTick_spec env hin (Run env now p pre) hinv.1
  have hlen2 : (Run env now p pre).writes.length = K - 1 := by
    have := hlen; simp [Run_init, hpre] at this; exact this
  have hstep : step env (Run env now p pre) Event.tick = onTick env (Run env now p pre) := by
    have : (Run env now p pre).status = Status.running := hs
    simp [step, this]
  have hrun : Run env now p evs = onTick env (Run env now p pre) := by
    rw [hsplit, Run_append, List.foldl_cons, hstep, heq, hlen2, hfail]
    exact foldl_step_of_not_running env post _ (by simp)
  rw [hrun, heq, hlen2, hfail]
  refine ⟨rfl, ?_, ?_⟩
  · simp [hlen2]; omega
  · have hd : delivered env 0 (Run env now p pre).writes = (K - 1) * p.MessageRate.toNat := by
      have := hdel; simp [Run_init, hpre, delivered] at this; exact this
    simp only [delivered_append, hd, hlen2, Nat.zero_add, hfail]
    simp

/-! ## Facts about the concrete inputs -/

theorem demoEnv_inRange : demoEnv.InRange := fun _ _ hn =>
  ⟨Int.emod_nonneg _ (ne_of_gt hn), Int.emod_lt_of_pos _ hn⟩

theorem failingEnv_inRange (K : Nat) (err : Error) : (failingEnv K err).InRange :=
  demoEnv_inRange

/-! ## Counters and `Report` -/

theorem wrap64_of_fits (x : Int) (h : fits64 x) : wrap64 x = x := by
  unfold fits64 at h
  unfold wrap64
  omega

theorem Report_nil_writer (env : Env) (now : Int) (p : Producer) (hw : p.writer = none) :
    (Report env now p).p = p := by
  simp [Report, hw]

theorem Report_counters (env : Env) (now : Int) (p : Producer) (w : Writer)
    (hw : p.writer = some w) :
    (Report env now p).p.totalMessages =
        wrap64 (p.totalMessages + (env.Stats w.statsCalls).Messages) ∧
      (Report env now p).p.totalErrors =
        wrap64 (p.totalErrors + (env.Stats w.statsCalls).Errors) ∧
      (Report env now p).p.totalBytes =
        wrap64 (p.totalBytes + (env.Stats w.statsCalls).Bytes) ∧
      (Report env now p).p.writer = some { w with statsCalls := w.statsCalls + 1 } := by
  simp [Report, hw]

/-- The guarded branch of `Report`: with no message counted after the fold the
rate text is `0/sec` and no division is evaluated. -/
theorem Report_rate_guarded (env : Env) (now : Int) (p : Producer) (w : Writer)
    (hw : p.writer = some w) (h0 : (Report env now p).p.totalMessages ≤ 0) :
    (Report env now p).line.map ReportLine.rate = some "0/sec" ∧
      (Report env now p).division = none := by
  have hc := (Report_counters env now p w hw).1
  rw [hc] at h0
  have hn : ¬ (0 < wrap64 (p.totalMessages + (env.Stats w.statsCalls).Messages)) := by omega
  simp [Report, hw, hn]

theorem acts_mono (env : Env)
    (hnn : ∀ k, 0 ≤ (env.Stats k).Messages ∧ 0 ≤ (env.Stats k).Errors ∧ 0 ≤ (env.Stats k).Bytes)
    (l : List Action) :
    ∀ s : RunState, NoOverflow env s l →
      s.p.totalMessages ≤ (acts env s l).p.totalMessages ∧
      s.p.totalErrors ≤ (acts env s l).p.totalErrors ∧
      s.p.totalBytes ≤ (acts env s l).p.totalBytes := by
  induction l with
  | nil => intro s _; simp [acts]
  | cons a l ih =>
    intro s hno
    cases a with
    | event e =>
      have h := ih (step env s e) hno
      rw [step_p] at h
      exact h
    | report now =>
      obtain ⟨hfit, hrest⟩ := hno
      have h := ih _ hrest
      have hacts : acts env s (Action.report now :: l) =
          acts env (act env s (Action.report now)) l := rfl
      rw [hacts]
      cases hw : s.p.writer with
      | none =>
        have hp : (act env s (Action.report now)).p = s.p := Report_nil_writer env now s.p hw
        rw [hp] at h
        exact h
      | some w =>
        unfold ReportFits at hfit
        rw [hw] at hfit
        obtain ⟨f1, f2, f3⟩ := hfit
        obtain ⟨c1, c2, c3, -⟩ := Report_counters env now s.p w hw
        have hp : (act env s (Action.report now)).p = (Report env now s.p).p := rfl
        rw [hp, c1, c2, c3, wrap64_of_fits _ f1, wrap64_of_fits _ f2, wrap64_of_fits _ f3] at h
        obtain ⟨n1, n2, n3⟩ := hnn w.statsCalls
        omega

/-! ## The claims -/

/-- C1: for a rate `R >= 0` and random draws in range, every tick taken while
`Run` is still in its loop (the first tick, and every tick after any number of
successful publishes, whatever cancellations came in between) hands exactly
one batch to `WriteMessages`, and that batch has exactly `R` messages; the
slice is empty again afterwards, so nothing is carried over, and every batch
written so far has `R` messages. For `R = 0` the batch is empty. -/
theorem C1_batch_size (env : Env) (now : Int) (p : Producer) (evs : List Event)
    (hR : 0 ≤ p.MessageRate) (hin : env.InRange)
    (hrun : (Run env now p evs).status = Status.running) :
    ∃ batch : List Message,
      (Run env now p (evs ++ [Event.tick])).writes = (Run env now p evs).writes ++ [batch] ∧
      (batch.length : Int) = p.MessageRate ∧
      (Run env now p (evs ++ [Event.tick])).messages = [] ∧
      ∀ b ∈ (Run env now p (evs ++ [Event.tick])).writes, (b.length : Int) = p.MessageRate := by
  obtain ⟨hm, -, -⟩ := Run_inv env hin now p evs
  obtain ⟨batch, k, hlen, -, heq⟩ := onTick_spec env hin (Run env now p evs) hm
  have hrate : (Run env now p evs).p.MessageRate = p.MessageRate := by
    rw [Run_p]; rfl
  have hstep : step env (Run env now p evs) Event.tick = onTick env (Run env now p evs) := by
    simp [step, hrun]
  have hall := (Run_inv env hin now p (evs ++ [Event.tick])).2.2
  refine ⟨batch, ?_, ?_, (Run_inv env hin now p (evs ++ [Event.tick])).1, ?_⟩
  · rw [Run_snoc, hstep, heq]
    cases env.WriteMessages (Run env now p evs).writes.length <;> rfl
  · rw [hlen, hrate]; omega
  · intro b hb
    rw [(hall b hb).1]
    omega

/-- Witness of C1: the second tick of the demo producer. -/
theorem C1_batch_size_witness :
    ∃ batch : List Message,
      (Run demoEnv 0 demoProducer ([Event.tick] ++ [Event.tick])).writes =
        (Run demoEnv 0 demoProducer [Event.tick]).writes ++ [batch] ∧
      (batch.length : Int) = demoProducer.MessageRate ∧
      (Run demoEnv 0 demoProducer ([Event.tick] ++ [Event.tick])).messages = [] ∧
      ∀ b ∈ (Run demoEnv 0 demoProducer ([Event.tick] ++ [Event.tick])).writes,
        (b.length : Int) = demoProducer.MessageRate :=
  C1_batch_size demoEnv 0 demoProducer [Event.tick] (by decide) demoEnv_inRange
    (foldl_step_success demoEnv demoEnv_inRange [Event.tick] (Run_init 0 demoProducer) rfl rfl
      (fun _ _ _ => rfl)).1

/-- C2: when the publishes of ticks `1 .. K-1` return nil and the publish of
tick `K` returns `err`, then after any events with at least `K` ticks `Run` has
returned exactly `err` and exactly `K` calls of `WriteMessages` were made: none
after the failing one, no retry. -/
theorem C2_first_failure_returned (env : Env) (now : Int) (p : Producer) (evs : List Event)
    (K : Nat) (err : Error) (hin : env.InRange) (hK : 1 ≤ K)
    (hok : ∀ k, k < K - 1 → env.WriteMessages k = none)
    (hfail : env.WriteMessages (K - 1) = some err) (hev : K ≤ ticks evs) :
    (Run env now p evs).status = Status.returned (some err) ∧
      (Run env now p evs).writes.length = K := by
  obtain ⟨h1, h2, -⟩ := Run_failure env hin now p evs K err hK hok hfail hev
  exact ⟨h1, h2⟩

/-- Witness of C2: the publish of the second tick fails, four ticks arrive. -/
theorem C2_first_failure_returned_witness :
    (Run (failingEnv 2 "broker down") 0 demoProducer
        [Event.tick, Event.tick, Event.cancel, Event.tick, Event.tick]).status =
        Status.returned (some "broker down") ∧
      (Run (failingEnv 2 "broker down") 0 demoProducer
        [Event.tick, Event.tick, Event.cancel, Event.tick, Event.tick]).writes.length = 2 :=
  C2_first_failure_returned (failingEnv 2 "broker down") 0 demoProducer
    [Event.tick, Event.tick, Event.cancel, Event.tick, Event.tick] 2 "broker down"
    (failingEnv_inRange 2 "broker down") (by decide)
    (by intro k hk; have : k = 0 := by omega
        subst this; rfl) rfl (by decide)

/-- C3 as stated fails: after one tick of the demo producer (rate 2) whose
publish succeeded, `totalMessages` is still 0, not `1 * 2`. -/
theorem C3_counterexample :
    demoEnv.WriteMessages 0 = none ∧
      (Run demoEnv 0 demoProducer [Event.tick]).status = Status.running ∧
      (Run demoEnv 0 demoProducer [Event.tick]).writes.length = 1 ∧
      (Run demoEnv 0 demoProducer [Event.tick]).p.totalMessages ≠
        (ticks [Event.tick] : Int) * demoProducer.MessageRate := by
  obtain ⟨h1, h2, -⟩ := foldl_step_success demoEnv demoEnv_inRange [Event.tick]
    (Run_init 0 demoProducer) rfl rfl (fun _ _ _ => rfl)
  refine ⟨rfl, h1, h2, ?_⟩
  rw [Run_p]
  decide

/-- C3, amended: for a rate `R >= 0` and random draws in range, `Run` never
changes `totalMessages`, `totalErrors` or `totalBytes`. What grows with the
ticks is the number of messages handed to `WriteMessages` calls that returned
nil: it is `N * R` after `N` ticks whose publishes all succeed, and
`(K - 1) * R` when `Run` returns the error of the first failing publish, the
one of tick `K`. The counters of a fresh producer reach `N * R` and 0 errors
when `Report` is called after the `N` ticks and the first `Stats()` answer of
the writer reports those messages and no error. -/
theorem C3_delivered_count (env : Env) (now : Int) (p : Producer) (evs : List Event)
    (hR : 0 ≤ p.MessageRate) (hin : env.InRange) :
    ((Run env now p evs).p.totalMessages = p.totalMessages ∧
      (Run env now p evs).p.totalErrors = p.totalErrors ∧
      (Run env now p evs).p.totalBytes = p.totalBytes) ∧
    ((∀ k, k < ticks evs → env.WriteMessages k = none) →
      (Run env now p evs).status = Status.running ∧
      (delivered env 0 (Run env now p evs).writes : Int) = (ticks evs : Int) * p.MessageRate ∧
      ∀ later : Int, p.totalMessages = 0 → p.totalErrors = 0 →
        (env.Stats 0).Messages = (delivered env 0 (Run env now p evs).writes : Int) →
        (env.Stats 0).Errors = 0 → fits64 ((ticks evs : Int) * p.MessageRate) →
        (Report env later (Run env now p evs).p).p.totalMessages =
            (ticks evs : Int) * p.MessageRate ∧
          (Report env later (Run env now p evs).p).p.totalErrors = 0) ∧
    (∀ (K : Nat) (err : Error), 1 ≤ K → K ≤ ticks evs →
      (∀ k, k < K - 1 → env.WriteMessages k = none) →
      env.WriteMessages (K - 1) = some err →
      (Run env now p evs).status = Status.returned (some err) ∧
      (delivered env 0 (Run env now p evs).writes : Int) = ((K : Int) - 1) * p.MessageRate) := by
  have hcast : ((p.MessageRate.toNat : Nat) : Int) = p.MessageRate := Int.toNat_of_nonneg hR
  refine ⟨?_, ?_, ?_⟩
  · rw [Run_p]
    exact ⟨rfl, rfl, rfl⟩
  · intro hok
    obtain ⟨h1, -, h3⟩ := foldl_step_success env hin evs (Run_init now p) rfl rfl
      (by intro k _ h2; exact hok k (by simpa [Run_init] using h2))
    have h3 : delivered env 0 (Run env now p evs).writes = ticks evs * p.MessageRate.toNat := by
      simpa [Run_init, delivered] using h3
    have hd : (delivered env 0 (Run env now p evs).writes : Int) =
        (ticks evs : Int) * p.MessageRate := by
      rw [h3, Nat.cast_mul, hcast]
    refine ⟨h1, hd, ?_⟩
    intro nowR hm he hsm hse hfit
    have hw : (Run env now p evs).p.writer = some (NewWriter [p.BrokerURL] p.TopicName) := by
      rw [Run_p]; rfl
    obtain ⟨c1, c2, -, -⟩ := Report_counters env nowR (Run env now p evs).p _ hw
    have hpm : (Run env now p evs).p.totalMessages = 0 := by rw [Run_p]; exact hm
    have hpe : (Run env now p evs).p.totalErrors = 0 := by rw [Run_p]; exact he
    have hs0 : (NewWriter [p.BrokerURL] p.TopicName).statsCalls = 0 := rfl
    rw [c1, c2, hpm, hpe, hs0, hsm, hse, hd, Int.zero_add, Int.zero_add,
      wrap64_of_fits _ hfit]
    exact ⟨rfl, by decide⟩
  · intro K err hK hev hok hfail
    obtain ⟨h1, -, h3⟩ := Run_failure env hin now p evs K err hK hok hfail hev
    refine ⟨h1, ?_⟩
    rw [h3, Nat.cast_mul, hcast, Nat.cast_sub hK, Nat.cast_one]

/-- Witness of C3 (amended): one successful tick of the demo producer followed
by a report, and a failure on the second of three ticks. -/
theorem C3_delivered_count_witness :
    ((Run demoEnv 0 demoProducer [Event.tick]).status = Status.running ∧
      (delivered demoEnv 0 (Run demoEnv 0 demoProducer [Event.tick]).writes : Int) =
        (ticks [Event.tick] : Int) * demoProducer.MessageRate ∧
      (Report demoEnv 1500000000 (Run demoEnv 0 demoProducer [Event.tick]).p).p.totalMessages =
        (ticks [Event.tick] : Int) * demoProducer.MessageRate ∧
      (Report demoEnv 1500000000 (Run demoEnv 0 demoProducer [Event.tick]).p).p.totalErrors
        = 0) ∧
    ((Run (failingEnv 2 "broker down") 0 demoProducer
        [Event.tick, Event.tick, Event.tick]).status = Status.returned (some "broker down") ∧
      (delivered (failingEnv 2 "broker down") 0
        (Run (failingEnv 2 "broker down") 0 demoProducer
          [Event.tick, Event.tick, Event.tick]).writes : Int) =
        (((2 : Nat) : Int) - 1) * demoProducer.MessageRate) :=
  have h := (C3_delivered_count demoEnv 0 demoProducer [Event.tick]
      (by decide) demoEnv_inRange).2.1 (fun _ _ => rfl)
  ⟨⟨h.1, h.2.1, h.2.2 1500000000 rfl rfl (h.2.1.trans (by decide)).symm rfl (by decide)⟩,
   (C3_delivered_count (failingEnv 2 "broker down") 0 demoProducer
      [Event.tick, Event.tick, Event.tick] (by decide)
      (failingEnv_inRange 2 "broker down")).2.2 2 "broker down" (by decide) (by decide)
      (by intro k hk; have : k = 0 := by omega
          subst this; rfl) rfl⟩

/-- C4, the code at the failing input: the context is cancelled while `Run`
waits for its second tick. `Run` does not stop: it is still in the loop after
the cancellation, and it returns only at the next tick, with the error of the
publish, not with nil. -/
theorem C4_cancel_is_not_observed :
    (Run (failingEnv 2 "context canceled") 0 demoProducer
        [Event.tick, Event.cancel]).status = Status.running ∧
      (Run (failingEnv 2 "context canceled") 0 demoProducer
        [Event.tick, Event.cancel]).ctxDone = true ∧
      (Run (failingEnv 2 "context canceled") 0 demoProducer
        [Event.tick, Event.cancel, Event.tick]).status =
          Status.returned (some "context canceled") ∧
      (Run demoEnv 0 demoProducer [Event.cancel]).status = Status.running := by
  have hrun := (foldl_step_success (failingEnv 2 "context canceled")
    (failingEnv_inRange 2 "context canceled") [Event.tick] (Run_init 0 demoProducer) rfl rfl
    (by intro k h1 h2
        have : k = 0 := by simp [Run_init, ticks] at h2; omega
        subst this; rfl)).1
  have hfail := (Run_failure (failingEnv 2 "context canceled")
    (failingEnv_inRange 2 "context canceled") 0 demoProducer
    [Event.tick, Event.cancel, Event.tick] 2 "context canceled" (by decide)
    (by intro k hk; have : k = 0 := by omega
        subst this; rfl) rfl (by decide)).1
  have hsnoc := Run_snoc (failingEnv 2 "context canceled") 0 demoProducer [Event.tick] Event.cancel
  have hrun' : (Run (failingEnv 2 "context canceled") 0 demoProducer [Event.tick]).status =
      Status.running := hrun
  refine ⟨?_, ?_, hfail, by decide⟩
  · show (Run (failingEnv 2 "context canceled") 0 demoProducer
        ([Event.tick] ++ [Event.cancel])).status = _
    rw [hsnoc]
    simp [step, hrun']
  · show (Run (failingEnv 2 "context canceled") 0 demoProducer
        ([Event.tick] ++ [Event.cancel])).ctxDone = _
    rw [hsnoc]
    simp [step, hrun']

/-- C5, the code at the failing input: a producer that ran one tick and was
reported (2 messages counted) is run again at 2 s and reported at 2.5 s, while
the new writer has nothing to report. The writer is non-nil and the elapsed
time truncated to seconds is 0, yet `Report` evaluates the division `2 / 0`
and the rate text is `+Inf/sec`, not `0/sec`. The same happens at any state
with messages counted and less than a second elapsed, such as 5 messages at
0.5 s. -/
theorem C5_zero_divisor_evaluated :
    ((Run_init 2000000000
        (Report demoEnv 1500000000 (Run demoEnv 0 demoProducer [Event.tick]).p).p).p.writer
        ≠ none ∧
      (Truncate (Since 2500000000 (Run_init 2000000000
        (Report demoEnv 1500000000 (Run demoEnv 0 demoProducer [Event.tick]).p).p).p.startTime)
        Second).tdiv Second = 0 ∧
      (Report quietEnv 2500000000 (Run_init 2000000000
        (Report demoEnv 1500000000 (Run demoEnv 0 demoProducer [Event.tick]).p).p).p).line.map
        ReportLine.rate = some "+Inf/sec" ∧
      (Report quietEnv 2500000000 (Run_init 2000000000
        (Report demoEnv 1500000000 (Run demoEnv 0 demoProducer [Event.tick]).p).p).p).division
        = some (2, 0)) ∧
    (busyProducer.writer ≠ none ∧
      (Truncate (Since 500000000 busyProducer.startTime) Second).tdiv Second = 0 ∧
      (Report quietEnv 500000000 busyProducer).line.map ReportLine.rate = some "+Inf/sec" ∧
      (Report quietEnv 500000000 busyProducer).line.map ReportLine.rate ≠ some "0/sec" ∧
      (Report quietEnv 500000000 busyProducer).division = some (5, 0)) := by
  rw [Run_p]
  decide

/-- C6: a call of `Report` on a producer with a non-nil writer makes exactly
one call of `Stats()` and, when the sums lie in the `int64` range, leaves the
counters at exactly `totalMessages + m`, `totalErrors + e`, `totalBytes + b`
for the values `(m, e, b)` of that call. Consequently, when every `Stats()`
value is non-negative and no addition leaves the `int64` range, none of the
three counters decreases over any sequence of loop events and `Report`
calls. -/
theorem C6_counters_fold_and_grow (env : Env) :
    (∀ (now : Int) (p : Producer) (w : Writer), p.writer = some w →
      fits64 (p.totalMessages + (env.Stats w.statsCalls).Messages) →
      fits64 (p.totalErrors + (env.Stats w.statsCalls).Errors) →
      fits64 (p.totalBytes + (env.Stats w.statsCalls).Bytes) →
      (Report env now p).p.totalMessages = p.totalMessages + (env.Stats w.statsCalls).Messages ∧
      (Report env now p).p.totalErrors = p.totalErrors + (env.Stats w.statsCalls).Errors ∧
      (Report env now p).p.totalBytes = p.totalBytes + (env.Stats w.statsCalls).Bytes ∧
      (Report env now p).p.writer = some { w with statsCalls := w.statsCalls + 1 }) ∧
    ((∀ k, 0 ≤ (env.Stats k).Messages ∧ 0 ≤ (env.Stats k).Errors ∧ 0 ≤ (env.Stats k).Bytes) →
      ∀ (s : RunState) (l : List Action), NoOverflow env s l →
        s.p.totalMessages ≤ (acts env s l).p.totalMessages ∧
        s.p.totalErrors ≤ (acts env s l).p.totalErrors ∧
        s.p.totalBytes ≤ (acts env s l).p.totalBytes) := by
  refine ⟨?_, fun hnn s l hno => acts_mono env hnn l s hno⟩
  intro now p w hw f1 f2 f3
  obtain ⟨c1, c2, c3, c4⟩ := Report_counters env now p w hw
  rw [c1, c2, c3, wrap64_of_fits _ f1, wrap64_of_fits _ f2, wrap64_of_fits _ f3]
  exact ⟨rfl, rfl, rfl, c4⟩

/-- Witness of C6: the demo run, reported after its first and second tick. -/
theorem C6_counters_fold_and_grow_witness :
    ((Report demoEnv 1500000000 (Run_init 0 demoProducer).p).p.totalMessages = 0 + 2 ∧
      (Report demoEnv 1500000000 (Run_init 0 demoProducer).p).p.totalErrors = 0 + 0 ∧
      (Report demoEnv 1500000000 (Run_init 0 demoProducer).p).p.totalBytes = 0 + 150 ∧
      (Report demoEnv 1500000000 (Run_init 0 demoProducer).p).p.writer =
        some { NewWriter ["localhost:9092"] "stocks" with statsCalls := 0 + 1 }) ∧
    ((Run_init 0 demoProducer).p.totalMessages ≤
        (acts demoEnv (Run_init 0 demoProducer)
          [Action.event Event.tick, Action.report 1500000000, Action.event Event.tick,
           Action.report 2500000000]).p.totalMessages ∧
      (Run_init 0 demoProducer).p.totalErrors ≤
        (acts demoEnv (Run_init 0 demoProducer)
          [Action.event Event.tick, Action.report 1500000000, Action.event Event.tick,
           Action.report 2500000000]).p.totalErrors ∧
      (Run_init 0 demoProducer).p.totalBytes ≤
        (acts demoEnv (Run_init 0 demoProducer)
          [Action.event Event.tick, Action.report 1500000000, Action.event Event.tick,
           Action.report 2500000000]).p.totalBytes) :=
  ⟨(C6_counters_fold_and_grow demoEnv).1 1500000000 (Run_init 0 demoProducer).p
      (NewWriter ["localhost:9092"] "stocks") rfl (by decide) (by decide) (by decide),
   (C6_counters_fold_and_grow demoEnv).2
      (fun _ => ⟨by simp [demoEnv], by simp [demoEnv], by simp [demoEnv]⟩)
      (Run_init 0 demoProducer)
      [Action.event Event.tick, Action.report 1500000000, Action.event Event.tick,
       Action.report 2500000000]
      (by
        simp only [NoOverflow, act, step_p]
        decide)⟩

/-- C7: when `net.Dial("tcp", BrokerURL)` fails with `err`, `CreateTopic`
returns `err` itself and issues no create-topic request. -/
theorem C7_dial_failure (env : AdminEnv) (p : Producer) (err : Error)
    (hdial : env.Dial "tcp" p.BrokerURL = Except.error err) :
    (CreateTopic env p).2 = some err ∧ createRequests (CreateTopic env p).1 = [] := by
  simp [CreateTopic, hdial, createRequests]

/-- Witness of C7: three partitions requested from an unreachable broker. -/
theorem C7_dial_failure_witness :
    (CreateTopic unreachableAdmin { demoProducer with TopicParts := 3 }).2 =
        some "dial tcp: connection refused" ∧
      createRequests (CreateTopic unreachableAdmin { demoProducer with TopicParts := 3 }).1 = [] :=
  C7_dial_failure unreachableAdmin { demoProducer with TopicParts := 3 }
    "dial tcp: connection refused" rfl

/-- C8: when the control connection opens, `CreateTopic` issues exactly one
create-topic request, on the connection wrapped by `kafka.NewConn(conn, "", 0)`,
for the single topic `TopicName` with `NumPartitions = TopicParts` and
`ReplicationFactor = 1`, and returns the result of that request unchanged: nil
exactly when the request returned nil, and otherwise the same error. -/
theorem C8_create_request (env : AdminEnv) (p : Producer) (conn : NetConn)
    (hdial : env.Dial "tcp" p.BrokerURL = Except.ok conn) :
    createRequests (CreateTopic env p).1 =
        [(NewConn conn "" 0,
          [{ Topic := p.TopicName, NumPartitions := p.TopicParts, ReplicationFactor := 1 }])] ∧
      (CreateTopic env p).2 =
        env.CreateTopics (NewConn conn "" 0)
          [{ Topic := p.TopicName, NumPartitions := p.TopicParts, ReplicationFactor := 1 }] ∧
      ((CreateTopic env p).2 = none ↔
        env.CreateTopics (NewConn conn "" 0)
          [{ Topic := p.TopicName, NumPartitions := p.TopicParts, ReplicationFactor := 1 }]
          = none) := by
  simp [CreateTopic, hdial, createRequests]

/-- Witness of C8: the topic exists already and the error comes back. -/
theorem C8_create_request_witness :
    createRequests (CreateTopic existingTopicAdmin demoProducer).1 =
        [(NewConn { id := 7 } "" 0,
          [{ Topic := "stocks", NumPartitions := 4, ReplicationFactor := 1 }])] ∧
      (CreateTopic existingTopicAdmin demoProducer).2 =
        existingTopicAdmin.CreateTopics (NewConn { id := 7 } "" 0)
          [{ Topic := "stocks", NumPartitions := 4, ReplicationFactor := 1 }] ∧
      ((CreateTopic existingTopicAdmin demoProducer).2 = none ↔
        existingTopicAdmin.CreateTopics (NewConn { id := 7 } "" 0)
          [{ Topic := "stocks", NumPartitions := 4, ReplicationFactor := 1 }] = none) :=
  C8_create_request existingTopicAdmin demoProducer { id := 7 } rfl

/-- C9, the code at the failing input: the publish of the first tick fails.
`Run` returns that error while the writer it opened is not closed and the
ticker is not stopped; the state differs from the one the statements after the
loop would leave. -/
theorem C9_writer_left_open :
    (Run (failingEnv 1 "broker down") 0 demoProducer [Event.tick]).status =
        Status.returned (some "broker down") ∧
      (Run (failingEnv 1 "broker down") 0 demoProducer [Event.tick]).p.writer =
        some { Brokers := ["localhost:9092"], Topic := "stocks", closed := false,
               statsCalls := 0 } ∧
      (Run (failingEnv 1 "broker down") 0 demoProducer [Event.tick]).tickerStopped = false := by
  refine ⟨?_, ?_, ?_⟩
  · exact (Run_failure (failingEnv 1 "broker down") (failingEnv_inRange 1 "broker down") 0
      demoProducer [Event.tick] 1 "broker down" (by decide) (by intro k hk; omega) rfl
      (by decide)).1
  · rw [Run_p]; rfl
  · exact foldl_step_tickerStopped _ _ _

/-- C10: when every `rand.Intn(n)` returns a value in `[0, n)`, every record
synthesis succeeds (no out-of-range index, no panic) and yields the flat
object with one of the 7 symbols, a price from 5 to 1004, `BUY` or `SELL`, a
quantity from 1 to 5000 and one of the 3 accounts; `Run` never panics and
every message of every batch it hands to `WriteMessages` is such a record. -/
theorem C10_records_well_formed (env : Env) (hin : env.InRange) (now : Int) (p : Producer)
    (evs : List Event) :
    (∀ k, ∃ m, synthRecord env k = some m ∧ WellFormed m) ∧
      (Run env now p evs).status ≠ Status.panicked ∧
      ∀ b ∈ (Run env now p evs).writes, ∀ m ∈ b, WellFormed m := by
  obtain ⟨-, h2, h3⟩ := Run_inv env hin now p evs
  exact ⟨synthRecord_wellFormed env hin, h2, fun b hb => (h3 b hb).2⟩

/-- Witness of C10: two ticks of the demo producer. -/
theorem C10_records_well_formed_witness :
    (∀ k, ∃ m, synthRecord demoEnv k = some m ∧ WellFormed m) ∧
      (Run demoEnv 0 demoProducer [Event.tick, Event.tick]).status ≠ Status.panicked ∧
      ∀ b ∈ (Run demoEnv 0 demoProducer [Event.tick, Event.tick]).writes,
        ∀ m ∈ b, WellFormed m :=
  C10_records_well_formed demoEnv demoEnv_inRange 0 demoProducer [Event.tick, Event.tick]

end KafkaProducer
